import Mathlib

/-!
Shallow embedding of the risk quantification core of
`src/风险控制/src/main.py` (ATR-based crypto risk control).

Prices, percentages and monetary amounts are modelled as rationals.
The Python float value `float("inf")` returned by
`median_hitting_time_bm` is modelled by the explicit value
`HittingTime.posInf`; fallible computations return `Except RiskError`.
-/

/-- One OHLC candle, as produced by `fetch_okx_candles` (the `open`
field is renamed `op` because `open` is a Lean keyword). -/
structure Candle where
  ts : Int
  op : ℚ
  high : ℚ
  low : ℚ
  close : ℚ
deriving DecidableEq

/-- The error kinds raised by the core (each a `ValueError` in the
source): `insufficientData` is "K线数量不足以计算 ATR" / "K线不足以计算ATR",
`invalidStop` is "止损百分比必须大于 0" / "根据方向与止损位计算得到的止损距离无效",
`missingStopInput` is "未提供止损百分比或止损位",
`invalidNotional` is "开仓金额必须大于 0", and
`noCandles` is "未获取到K线". -/
inductive RiskError where
  | insufficientData
  | invalidStop
  | missingStopInput
  | invalidNotional
  | noCandles
deriving DecidableEq

/-- Function `compute_true_range` of main.py (line 95):
`max(high - low, abs(high - prev_close), abs(low - prev_close))`. -/
def compute_true_range (prev_close high low : ℚ) : ℚ :=
  max (high - low) (max (abs (high - prev_close)) (abs (low - prev_close)))

/-- The list `trs` built by `compute_atr` (lines 102-105): for each
`i` in `range(1, len(candles))` the true range of candle `i` against
the close of candle `i-1`.  `candles.zip candles.tail` pairs candle
`i-1` with candle `i`. -/
def trList (candles : List Candle) : List ℚ :=
  (candles.zip candles.tail).map fun pc => compute_true_range pc.1.close pc.2.high pc.2.low

/-- The list `atr_values` built by `compute_atr` (lines 107-110), for
`period ≥ 1` (the caller validates positivity): for each `i` in
`range(period - 1, len(trs))` — that is,
`(List.range trs.length).drop (period - 1)` — the mean of the window
slice `trs[i - (period - 1) : i + 1]`, which is
`(trs.drop (i + 1 - period)).take period`. -/
def atr_values_list (candles : List Candle) (period : Nat) : List ℚ :=
  ((List.range (trList candles).length).drop (period - 1)).map fun i =>
    (((trList candles).drop (i + 1 - period)).take period).sum / (period : ℚ)

/-- Function `compute_atr` of main.py (lines 99-111): guard the series
length, build the true-range list and its moving averages, and return
the final one (`atr_values[-1]`, i.e. `getLast?`; the `none` branch is
unreachable under the length guard). -/
def compute_atr (candles : List Candle) (period : Nat) : Except RiskError ℚ :=
  if candles.length < period + 1 then .error .insufficientData
  else
    match (atr_values_list candles period).getLast? with
    | some v => .ok v
    | none => .error .insufficientData

/-- Result type of `median_hitting_time_bm`: either a finite number of
seconds or the float positive infinity returned when `sigma ≤ 0`. -/
inductive HittingTime where
  | finite (t : ℚ)
  | posInf
deriving DecidableEq

/-- Function `median_hitting_time_bm` of main.py (lines 115-127):
returns `float("inf")` when `sigma <= 0`, otherwise
`steps * dt_seconds` with `steps = 0.5 * (barrier_abs / sigma) ** 2`. -/
def median_hitting_time_bm (sigma barrier_abs dt_seconds : ℚ) : HittingTime :=
  if sigma ≤ 0 then .posInf
  else
    let steps := (1 / 2 : ℚ) * (barrier_abs / sigma) ^ 2
    .finite (steps * dt_seconds)

/-- Trade direction: the source's strings "多头" (long) and "空头"
(short) from `side_var`. -/
inductive Side where
  | long
  | short
deriving DecidableEq

/-- The stop-rule form state probed by `compute_stop_distance`:
`stop_pct` models `stop_pct_var` (empty string = `none`) and
`stop_level` models `stop_level_var` (empty string = `none`). -/
structure StopInput where
  stop_pct : Option ℚ
  stop_level : Option ℚ
deriving DecidableEq

/-- Method `App.compute_stop_distance` of main.py (lines 255-276), with
the form state (`stop_pct_var`, `stop_level_var`, `side_var`) passed
explicitly.  The percentage field is probed first; the level field is
only consulted when no percentage is given. -/
def compute_stop_distance (inp : StopInput) (side : Side) (last_close : ℚ) :
    Except RiskError (ℚ × ℚ) :=
  match inp.stop_pct with
  | some pct =>
    if pct ≤ 0 then .error .invalidStop
    else .ok (last_close * (pct / 100), pct)
  | none =>
    match inp.stop_level with
    | none => .error .missingStopInput
    | some stop_level =>
      let dist : ℚ :=
        match side with
        | .long => max 0 (last_close - stop_level)
        | .short => max 0 (stop_level - last_close)
      if dist ≤ 0 then .error .invalidStop
      else .ok (dist, dist / last_close * 100)

/-- Lines 341-367 of `App.on_calculate` (CEX branch): resolve the
volatility proxy and the last close.  With a custom ATR the candles are
only required to be non-empty and the value is used unchecked; without
one the length is checked against `atr_n + 1` and `compute_atr` runs. -/
def resolve_sigma_price (candles : List Candle) (atr_n : Nat) (custom_atr : Option ℚ) :
    Except RiskError (ℚ × ℚ) :=
  match custom_atr with
  | some a =>
    match candles.getLast? with
    | none => .error .noCandles
    | some c => .ok (a, c.close)
  | none =>
    if candles.length < atr_n + 1 then .error .insufficientData
    else
      match compute_atr candles atr_n, candles.getLast? with
      | .ok atr, some c => .ok (atr, c.close)
      | .error e, _ => .error e
      | .ok _, none => .error .noCandles

/-- The output values assembled by `App.on_calculate` (lines 369-398):
ATR, absolute stop distance, stop percentage, position size in base
units, loss at stop in quote currency, and the median hitting time. -/
structure RiskResult where
  atrValue : ℚ
  stopDistanceAbs : ℚ
  stopPct : ℚ
  positionSize : ℚ
  lossAmount : ℚ
  medianHittingSeconds : HittingTime
deriving DecidableEq

/-- The calculation body of `App.on_calculate` of main.py
(lines 328-398, CEX branch), with the form state passed explicitly and
the network fetch replaced by the fetched candle list itself: the
notional is validated first, then sigma and last close are resolved,
then the stop distance, then position size, loss and hitting time. -/
def on_calculate (candles : List Candle) (atr_n : Nat) (open_notional : ℚ)
    (custom_atr : Option ℚ) (inp : StopInput) (side : Side) (dt_seconds : ℚ) :
    Except RiskError RiskResult :=
  if open_notional ≤ 0 then .error .invalidNotional
  else
    match resolve_sigma_price candles atr_n custom_atr with
    | .error e => .error e
    | .ok (atr_value, last_close) =>
      match compute_stop_distance inp side last_close with
      | .error e => .error e
      | .ok (stop_abs, stop_pct) =>
        let position_base := open_notional / last_close
        let loss_quote := position_base * stop_abs
        .ok ⟨atr_value, stop_abs, stop_pct, position_base, loss_quote,
             median_hitting_time_bm atr_value stop_abs dt_seconds⟩

/-- Specification-side definition, written from the spec's wording (not
from the code) to be compared with `compute_atr`: the ATR at the most
recent candle as the plain arithmetic mean of the last `period` True
Range values. -/
def atr_spec (candles : List Candle) (period : Nat) : ℚ :=
  let trs := trList candles
  ((trs.drop (trs.length - period)).sum) / (period : ℚ)

/-- A sample five-candle series used to instantiate theorems with
hypotheses at concrete inputs. -/
def sampleCandles : List Candle :=
  [⟨0, 10, 12, 9, 11⟩, ⟨1, 11, 15, 10, 14⟩, ⟨2, 14, 16, 13, 13⟩,
   ⟨3, 13, 14, 11, 12⟩, ⟨4, 12, 17, 12, 16⟩]

theorem trList_length (candles : List Candle) :
    (trList candles).length = candles.length - 1 := by
  simp only [trList, List.length_map, List.length_zip, List.length_tail]
  omega

theorem compute_atr_ok (candles : List Candle) (p : Nat) (hp : 1 ≤ p)
    (hlen : p + 1 ≤ candles.length) :
    compute_atr candles p = .ok (atr_spec candles p) := by
  have hN : (trList candles).length = candles.length - 1 := trList_length candles
  have hnotlt : ¬ candles.length < p + 1 := by omega
  have hgl : (atr_values_list candles p).getLast? =
      some ((((trList candles).drop ((trList candles).length - p)).take p).sum / (p : ℚ)) := by
    rw [atr_values_list, List.getLast?_eq_getElem?]
    simp only [List.length_map, List.length_drop, List.length_range]
    rw [List.getElem?_map, List.getElem?_drop]
    have hidx : p - 1 + ((trList candles).length - (p - 1) - 1) =
        (trList candles).length - 1 := by omega
    rw [hidx, List.getElem?_range (by omega)]
    have harg : (trList candles).length - 1 + 1 - p = (trList candles).length - p := by omega
    simp only [Option.map_some', harg]
  rw [compute_atr, if_neg hnotlt, hgl]
  have htake : ((trList candles).drop ((trList candles).length - p)).take p =
      (trList candles).drop ((trList candles).length - p) := by
    apply List.take_of_length_le
    rw [List.length_drop]
    omega
  rw [htake]
  rfl

/-- C1: for every price series of length `n ≥ period + 1` with
`period ≥ 1`, `compute_atr` returns the plain arithmetic mean of the
last `period` True Range values (the ATR at the most recent candle),
where the True Range of candle `i` is
`max(high_i − low_i, |high_i − close_{i−1}|, |low_i − close_{i−1}|)`. -/
theorem c1_compute_atr_is_mean_of_last_true_ranges (candles : List Candle) (p : Nat)
    (hp : 1 ≤ p) (hlen : p + 1 ≤ candles.length) :
    compute_atr candles p = .ok (atr_spec candles p) :=
  compute_atr_ok candles p hp hlen

/-- Witness for C1 at a concrete five-candle series with period 3:
the last three true ranges are 3, 3, 5, whose mean is 11/3. -/
theorem c1_witness :
    compute_atr sampleCandles 3 = .ok (11 / 3) ∧ atr_spec sampleCandles 3 = 11 / 3 := by
  have h : atr_spec sampleCandles 3 = 11 / 3 := by
    norm_num [atr_spec, trList, sampleCandles, compute_true_range]
  exact ⟨(c1_compute_atr_is_mean_of_last_true_ranges sampleCandles 3 (by norm_num)
    (by norm_num [sampleCandles])).trans (by rw [h]), h⟩

/-- C2: `median_hitting_time_bm` returns exactly
`0.5 × (barrier_abs / sigma)² × dt_seconds` whenever `sigma > 0`, and
positive infinity as a normal value (not an error) whenever
`sigma ≤ 0`. -/
theorem c2_median_hitting_time_formula (sigma barrier_abs dt_seconds : ℚ) :
    (0 < sigma → median_hitting_time_bm sigma barrier_abs dt_seconds =
      .finite ((1 / 2 : ℚ) * (barrier_abs / sigma) ^ 2 * dt_seconds)) ∧
    (sigma ≤ 0 → median_hitting_time_bm sigma barrier_abs dt_seconds = .posInf) := by
  constructor
  · intro h
    rw [median_hitting_time_bm, if_neg (not_le.mpr h)]
  · intro h
    rw [median_hitting_time_bm, if_pos h]

/-- Witness for C2: sigma 2, barrier 4, dt 3600 gives 7200 seconds;
sigma 0 gives positive infinity. -/
theorem c2_witness :
    median_hitting_time_bm 2 4 3600 = .finite 7200 ∧
    median_hitting_time_bm 0 4 3600 = .posInf := by
  constructor
  · rw [(c2_median_hitting_time_formula 2 4 3600).1 (by norm_num)]
    norm_num
  · exact (c2_median_hitting_time_formula 0 4 3600).2 (by norm_num)

/-- C3: for a level stop rule, `compute_stop_distance` on side Long
yields distance `max 0 (last − level)` and on side Short
`max 0 (level − last)`; it fails with `InvalidStop` exactly when that
distance is ≤ 0, and on success returns
`percentage = distance / last × 100`. -/
theorem c3_level_stop_direction_aware (last stop_level : ℚ) (h : 0 < last) :
    (compute_stop_distance ⟨none, some stop_level⟩ .long last =
      if max 0 (last - stop_level) ≤ 0 then .error .invalidStop
      else .ok (max 0 (last - stop_level), max 0 (last - stop_level) / last * 100)) ∧
    (compute_stop_distance ⟨none, some stop_level⟩ .short last =
      if max 0 (stop_level - last) ≤ 0 then .error .invalidStop
      else .ok (max 0 (stop_level - last), max 0 (stop_level - last) / last * 100)) :=
  ⟨rfl, rfl⟩

/-- Witness for C3: level 95 at last price 100 gives distance 5 and
percentage 5 for a long, and fails with `InvalidStop` for a short. -/
theorem c3_witness :
    compute_stop_distance ⟨none, some 95⟩ .long 100 = .ok (5, 5) ∧
    compute_stop_distance ⟨none, some 95⟩ .short 100 = .error .invalidStop := by
  have h := c3_level_stop_direction_aware 100 95 (by norm_num)
  constructor
  · rw [h.1]
    norm_num
  · rw [h.2]
    norm_num

/-- C4: for a percentage stop rule, `compute_stop_distance` fails with
`InvalidStop` when the value is ≤ 0 and otherwise returns distance
`last × value / 100` and percentage `value`, regardless of the level
field and the side. -/
theorem c4_percentage_stop (last v : ℚ) (lvl : Option ℚ) (side : Side) :
    compute_stop_distance ⟨some v, lvl⟩ side last =
      if v ≤ 0 then .error .invalidStop else .ok (last * v / 100, v) := by
  rw [compute_stop_distance]
  simp only [mul_div_assoc]

/-- C5: when both a percentage and a level are supplied the percentage
rule is used and the level is ignored (the result coincides with the
level field absent); when neither is supplied the call fails with
`MissingStopInput`, never substituting a default. -/
theorem c5_percentage_precedence_and_missing_input (last v lvl : ℚ) (side : Side) :
    (compute_stop_distance ⟨some v, some lvl⟩ side last =
      compute_stop_distance ⟨some v, none⟩ side last) ∧
    compute_stop_distance ⟨none, none⟩ side last = .error .missingStopInput :=
  ⟨rfl, rfl⟩

/-- C6: with `period ≥ 1`, `compute_atr` fails with `InsufficientData`
on every series shorter than `period + 1` candles, and succeeds (never
raising `InsufficientData`) on every series of at least `period + 1`
candles. -/
theorem c6_insufficient_data_boundary (candles : List Candle) (p : Nat) (hp : 1 ≤ p) :
    (candles.length < p + 1 → compute_atr candles p = .error .insufficientData) ∧
    (p + 1 ≤ candles.length → ∃ v, compute_atr candles p = .ok v) := by
  constructor
  · intro h
    rw [compute_atr, if_pos h]
  · intro h
    exact ⟨atr_spec candles p, compute_atr_ok candles p hp h⟩

/-- Witness for C6: three candles are too few for period 3
(3 < 3 + 1), while five suffice. -/
theorem c6_witness :
    compute_atr (sampleCandles.take 3) 3 = .error .insufficientData ∧
    ∃ v, compute_atr sampleCandles 3 = .ok v :=
  ⟨(c6_insufficient_data_boundary (sampleCandles.take 3) 3 (by norm_num)).1 (by decide),
   (c6_insufficient_data_boundary sampleCandles 3 (by norm_num)).2 (by decide)⟩

/-- C9: whenever `compute_stop_distance` succeeds at a positive last
price — through either the percentage branch or the level branch — the
returned absolute distance and percentage are both strictly
positive. -/
theorem c9_successful_stop_is_positive (inp : StopInput) (side : Side) (last d pct : ℚ)
    (hlast : 0 < last) (h : compute_stop_distance inp side last = .ok (d, pct)) :
    0 < d ∧ 0 < pct := by
  rcases inp with ⟨pctOpt, lvlOpt⟩
  rcases pctOpt with _ | v
  · rcases lvlOpt with _ | lvl
    · exact absurd h (by rw [compute_stop_distance]; simp)
    · rw [compute_stop_distance] at h
      rcases side with _ | _ <;> dsimp at h
      · by_cases hle : max 0 (last - lvl) ≤ 0
        · rw [if_pos hle] at h
          exact absurd h (by simp)
        · rw [if_neg hle] at h
          have hpos : 0 < max 0 (last - lvl) := lt_of_not_le hle
          simp only [Except.ok.injEq, Prod.mk.injEq] at h
          obtain ⟨hd, hpct⟩ := h
          subst hd
          subst hpct
          exact ⟨hpos, mul_pos (div_pos hpos hlast) (by norm_num)⟩
      · by_cases hle : max 0 (lvl - last) ≤ 0
        · rw [if_pos hle] at h
          exact absurd h (by simp)
        · rw [if_neg hle] at h
          have hpos : 0 < max 0 (lvl - last) := lt_of_not_le hle
          simp only [Except.ok.injEq, Prod.mk.injEq] at h
          obtain ⟨hd, hpct⟩ := h
          subst hd
          subst hpct
          exact ⟨hpos, mul_pos (div_pos hpos hlast) (by norm_num)⟩
  · rw [compute_stop_distance] at h
    dsimp at h
    by_cases hv : v ≤ 0
    · rw [if_pos hv] at h
      exact absurd h (by simp)
    · rw [if_neg hv] at h
      have hvpos : 0 < v := lt_of_not_le hv
      simp only [Except.ok.injEq, Prod.mk.injEq] at h
      obtain ⟨hd, hpct⟩ := h
      subst hd
      subst hpct
      exact ⟨mul_pos hlast (div_pos hvpos (by norm_num)), hvpos⟩

/-- Witness for C9: the percentage rule 10 at last price 100 succeeds
with distance 10 and percentage 10, both positive. -/
theorem c9_witness : (0 : ℚ) < 10 ∧ (0 : ℚ) < 10 :=
  c9_successful_stop_is_positive ⟨some 10, none⟩ .long 100 10 10 (by norm_num)
    (by norm_num [compute_stop_distance])

theorem compute_atr_error_cases (candles : List Candle) (p : Nat) (e : RiskError)
    (h : compute_atr candles p = .error e) : e = .insufficientData := by
  rw [compute_atr] at h
  split_ifs at h with hc
  · exact (Except.error.inj h).symm
  · rcases hgl : (atr_values_list candles p).getLast? with _ | v <;> rw [hgl] at h
    · exact (Except.error.inj h).symm
    · exact absurd h (by simp)

theorem compute_stop_distance_error_cases (inp : StopInput) (side : Side) (last : ℚ)
    (e : RiskError) (h : compute_stop_distance inp side last = .error e) :
    e = .invalidStop ∨ e = .missingStopInput := by
  rcases inp with ⟨pctOpt, lvlOpt⟩
  rcases pctOpt with _ | v
  · rcases lvlOpt with _ | lvl
    · rw [compute_stop_distance] at h
      exact Or.inr (Except.error.inj h).symm
    · rw [compute_stop_distance] at h
      rcases side with _ | _ <;> dsimp at h <;> split_ifs at h <;>
        exact Or.inl (Except.error.inj h).symm
  · rw [compute_stop_distance] at h
    dsimp at h
    split_ifs at h
    exact Or.inl (Except.error.inj h).symm

theorem resolve_sigma_price_error_cases (candles : List Candle) (p : Nat)
    (ca : Option ℚ) (e : RiskError) (h : resolve_sigma_price candles p ca = .error e) :
    e = .insufficientData ∨ e = .noCandles := by
  rcases ca with _ | a
  · rw [resolve_sigma_price] at h
    by_cases hc : candles.length < p + 1
    · rw [if_pos hc] at h
      exact Or.inl (Except.error.inj h).symm
    · rw [if_neg hc] at h
      rcases ha : compute_atr candles p with ea | atr
      · rw [ha] at h
        dsimp at h
        exact Or.inl ((Except.error.inj h).symm.trans (compute_atr_error_cases candles p ea ha))
      · rw [ha] at h
        rcases hgl : candles.getLast? with _ | c <;> rw [hgl] at h <;> dsimp at h
        · exact Or.inr (Except.error.inj h).symm
        · exact absurd h (by simp)
  · rw [resolve_sigma_price] at h
    rcases hgl : candles.getLast? with _ | c <;> rw [hgl] at h <;> dsimp at h
    · exact Or.inr (Except.error.inj h).symm
    · exact absurd h (by simp)

theorem resolve_sigma_price_ok_price (candles : List Candle) (p : Nat) (ca : Option ℚ)
    (a last : ℚ) (ec : Candle) (hl : candles.getLast? = some ec)
    (h : resolve_sigma_price candles p ca = .ok (a, last)) : last = ec.close := by
  rcases ca with _ | a0
  · rw [resolve_sigma_price] at h
    by_cases hc : candles.length < p + 1
    · rw [if_pos hc] at h
      exact absurd h (by simp)
    · rw [if_neg hc] at h
      rcases ha : compute_atr candles p with ea | atr <;> rw [ha, hl] at h <;> dsimp at h
      · exact absurd h (by simp)
      · exact ((Prod.mk.injEq _ _ _ _).mp (Except.ok.inj h)).2.symm
  · rw [resolve_sigma_price, hl] at h
    dsimp at h
    exact ((Prod.mk.injEq _ _ _ _).mp (Except.ok.inj h)).2.symm

/-- C7: the calculation fails with `InvalidNotional` exactly when the
notional is ≤ 0, and every successful result carries
`positionSize = notional / lastPrice` and
`lossAmount = positionSize × stopDistanceAbs`, with no rounding. -/
theorem c7_loss_sizing (candles : List Candle) (p : Nat) (n : ℚ) (ca : Option ℚ)
    (inp : StopInput) (side : Side) (dt : ℚ) (ec : Candle)
    (hl : candles.getLast? = some ec) (hprice : 0 < ec.close) :
    (on_calculate candles p n ca inp side dt = .error .invalidNotional ↔ n ≤ 0) ∧
    (∀ r, on_calculate candles p n ca inp side dt = .ok r →
      r.positionSize = n / ec.close ∧ r.lossAmount = r.positionSize * r.stopDistanceAbs) := by
  constructor
  · constructor
    · intro h
      by_contra hn
      push_neg at hn
      rw [on_calculate, if_neg (not_le.mpr hn)] at h
      rcases hr : resolve_sigma_price candles p ca with er | pr <;> rw [hr] at h <;> dsimp at h
      · rcases resolve_sigma_price_error_cases candles p ca er hr with h1 | h1 <;>
          rw [h1] at h <;> exact absurd (Except.error.inj h) (by simp)
      · obtain ⟨atr, last⟩ := pr
        dsimp at h
        rcases hs : compute_stop_distance inp side last with es | pr2 <;>
          rw [hs] at h <;> dsimp at h
        · rcases compute_stop_distance_error_cases inp side last es hs with h1 | h1 <;>
            rw [h1] at h <;> exact absurd (Except.error.inj h) (by simp)
        · obtain ⟨d, pct⟩ := pr2
          dsimp at h
          exact absurd h (by simp)
    · intro h
      rw [on_calculate, if_pos h]
  · intro r hok
    by_cases hn : n ≤ 0
    · rw [on_calculate, if_pos hn] at hok
      exact absurd hok (by simp)
    · rw [on_calculate, if_neg hn] at hok
      rcases hr : resolve_sigma_price candles p ca with er | pr <;> rw [hr] at hok <;>
        dsimp at hok
      · exact absurd hok (by simp)
      · obtain ⟨atr, last⟩ := pr
        have hlast : last = ec.close := resolve_sigma_price_ok_price candles p ca atr last ec hl hr
        dsimp at hok
        rcases hs : compute_stop_distance inp side last with es | pr2 <;>
          rw [hs] at hok <;> dsimp at hok
        · exact absurd hok (by simp)
        · obtain ⟨d, pct⟩ := pr2
          dsimp at hok
          rw [← Except.ok.inj hok, hlast]
          exact ⟨rfl, rfl⟩

/-- Witness for C7: a negative notional fails with `InvalidNotional`
on the sample series. -/
theorem c7_witness :
    on_calculate sampleCandles 3 (-5) none ⟨some 10, none⟩ .long 3600 =
      .error .invalidNotional :=
  (c7_loss_sizing sampleCandles 3 (-5) none ⟨some 10, none⟩ .long 3600
    ⟨4, 12, 17, 12, 16⟩ rfl (by norm_num)).1.mpr (by norm_num)

/-- C8: with a custom ATR the calculation never invokes `compute_atr`:
its result depends on the series only through the last close (two
series with the same last price — even with different ATR periods —
give identical results), the supplied value is used directly as sigma
for the hitting-time estimate, and an empty series (no last price)
still fails. -/
theorem c8_custom_atr_bypass (c1 c2 : List Candle) (p1 p2 : Nat) (n a : ℚ)
    (inp : StopInput) (side : Side) (dt : ℚ) (e1 e2 : Candle)
    (h1 : c1.getLast? = some e1) (h2 : c2.getLast? = some e2) (hc : e1.close = e2.close) :
    on_calculate c1 p1 n (some a) inp side dt = on_calculate c2 p2 n (some a) inp side dt ∧
    (∀ r, on_calculate c1 p1 n (some a) inp side dt = .ok r →
      r.atrValue = a ∧
      r.medianHittingSeconds = median_hitting_time_bm a r.stopDistanceAbs dt) ∧
    (0 < n → on_calculate [] p1 n (some a) inp side dt = .error .noCandles) := by
  refine ⟨?_, ?_, ?_⟩
  · rw [on_calculate, on_calculate, resolve_sigma_price, resolve_sigma_price, h1, h2]
    dsimp
    rw [hc]
  · intro r hok
    by_cases hn : n ≤ 0
    · rw [on_calculate, if_pos hn] at hok
      exact absurd hok (by simp)
    · rw [on_calculate, if_neg hn, resolve_sigma_price, h1] at hok
      dsimp at hok
      rcases hs : compute_stop_distance inp side e1.close with es | pr2 <;>
        rw [hs] at hok <;> dsimp at hok
      · exact absurd hok (by simp)
      · obtain ⟨d, pct⟩ := pr2
        dsimp at hok
        rw [← Except.ok.inj hok]
        exact ⟨rfl, rfl⟩
  · intro hn
    rw [on_calculate, if_neg (not_le.mpr hn), resolve_sigma_price]
    rfl

/-- Witness for C8: the five-candle sample series with period 3 and a
one-candle series with period 14, sharing last close 16, give the same
result under custom ATR 2. -/
theorem c8_witness :
    on_calculate sampleCandles 3 100 (some 2) ⟨some 10, none⟩ .long 3600 =
      on_calculate [⟨4, 12, 17, 12, 16⟩] 14 100 (some 2) ⟨some 10, none⟩ .long 3600 :=
  (c8_custom_atr_bypass sampleCandles [⟨4, 12, 17, 12, 16⟩] 3 14 100 2 ⟨some 10, none⟩
    .long 3600 ⟨4, 12, 17, 12, 16⟩ ⟨4, 12, 17, 12, 16⟩ rfl rfl rfl).1

/-- C10: a non-positive custom ATR is accepted without any validation:
the calculation succeeds and the supplied value flows through as sigma,
making the median hitting time positive infinity rather than an
error. -/
theorem c10_nonpositive_custom_atr_accepted (candles : List Candle) (p : Nat)
    (n a d pct dt : ℚ) (inp : StopInput) (side : Side) (ec : Candle)
    (ha : a ≤ 0) (hn : 0 < n) (hl : candles.getLast? = some ec)
    (hstop : compute_stop_distance inp side ec.close = .ok (d, pct)) :
    on_calculate candles p n (some a) inp side dt =
      .ok ⟨a, d, pct, n / ec.close, n / ec.close * d, .posInf⟩ := by
  rw [on_calculate, if_neg (not_le.mpr hn), resolve_sigma_price, hl]
  dsimp
  rw [hstop]
  dsimp
  rw [median_hitting_time_bm, if_pos ha]

/-- Witness for C10: custom ATR −1 on a single-candle series with a 10%
stop at last price 100 succeeds with hitting time positive infinity. -/
theorem c10_witness :
    on_calculate [⟨0, 100, 100, 100, 100⟩] 14 100 (some (-1)) ⟨some 10, none⟩ .long 3600 =
      .ok ⟨-1, 10, 10, 1, 10, .posInf⟩ := by
  have h := c10_nonpositive_custom_atr_accepted [⟨0, 100, 100, 100, 100⟩] 14 100 (-1) 10 10
    3600 ⟨some 10, none⟩ .long ⟨0, 100, 100, 100, 100⟩ (by norm_num) (by norm_num) rfl
    (by norm_num [compute_stop_distance])
  rw [h]
  norm_num
